import Mathlib

/-!
Verification of the Neptun Smart register decode/encode and write-serialization
core (`custom_components/neptun_smart_local/coordinator.py`, with bit layouts
corroborated by `select.py`, `switch.py`, `number.py`).

Machine integers are modelled as `Nat` (Python ints are unbounded and all
register values are non-negative); Python `value & ~mask` on non-negative ints
is exactly `Nat.ldiff value mask`.  Floating-point inputs are modelled as the
exact rational numbers they denote; every concrete input used in a theorem
below is dyadic with an exactly representable intermediate product, so the
rational model agrees with IEEE double evaluation there.  Python `round`
(round-half-to-even) is modelled by `pythonRound`.
-/

/-- Modelled from the spec: `const.py` is not under `src/` (only importers are).
The spec fixes bit 8 as the zone-1-specific bit of the alarm/mode register. -/
def BIT_ZONE_1 : Nat := 1 <<< 8

/-- Modelled from the spec: `const.py` is not under `src/`. Zone-2 state bit,
adjacent to the zone-1 bit of the alarm/mode register. -/
def BIT_ZONE_2 : Nat := 1 <<< 9

/-- Modelled from the spec: combined zone-1 and zone-2 mask, used by
`switch.py` as the single-zone-mode valve control mask. -/
def MASK_ZONE_BOTH : Nat := BIT_ZONE_1 ||| BIT_ZONE_2

/-- Modelled from the spec: `const.py` is not under `src/`. Dual-zone-mode flag
of the alarm/mode register, a single bit distinct from the zone bits. -/
def BIT_DUAL_ZONE_MODE : Nat := 1 <<< 7

/-- Register address of the alarm/mode word (`coordinator.py` reads 7 words
from it and indexes the batch by the register constants, so the leading block
starts at 0). -/
def REG_ALARM_MODE : Nat := 0

/-- Offset of the line 1/2 config word in the leading 7-word block
(`select.py` writes line 1/2 config at address 1). -/
def REG_LINE_CFG_1_2 : Nat := 1

/-- Offset of the line 3/4 config word (`select.py` address 2). -/
def REG_LINE_CFG_3_4 : Nat := 2

/-- Offset of the raw leak-sensor word. -/
def REG_LEAK_SENSOR_RAW : Nat := 3

/-- Offset of the relay config word (`select.py` address 4). -/
def REG_RELAY_CFG : Nat := 4

/-- Offset of the modbus config word (`select.py` address 5). -/
def REG_MODBUS_CFG : Nat := 5

/-- Offset of the wireless sensor count word. -/
def REG_WIRELESS_SENSOR_COUNT : Nat := 6

/-- Modelled from the spec: wireless sensor config block base
(`select.py` writes wireless group `idx` at address `7 + (idx - 1)`). -/
def REG_WIRELESS_PARAMS_START : Nat := 7

/-- Modelled from the spec: wireless sensor status block base, following the
50-word params block. -/
def REG_WIRELESS_SENSORS_START : Nat := 57

/-- Modelled from the spec: water counter block base; the counter settings
start at 123 (`coordinator.py` docstring "registers 123..130") and the water
block of 16 words immediately precedes it. -/
def REG_WATER_COUNTERS_START : Nat := 107

/-- Water counter block length: 8 counters of 2 words each. -/
def REG_WATER_COUNTERS_REG_COUNT : Nat := 16

/-- Counter settings block base (`coordinator.py` docstring and `select.py`
both place counter `idx` settings at `123 + (idx - 1)`). -/
def REG_COUNTER_SETTINGS_START : Nat := 123

/-- Counter settings block length. -/
def REG_COUNTER_SETTINGS_COUNT : Nat := 8

/-- Embeds `set_bits` of `coordinator.py`: `value | mask`. -/
def set_bits (value mask : Nat) : Nat := value ||| mask

/-- Embeds `clear_bits` of `coordinator.py`: `value & ~mask` on a non-negative
Python int, i.e. the bits of `value` with the bits of `mask` removed. -/
def clear_bits (value mask : Nat) : Nat := Nat.ldiff value mask

/-- Embeds `toggle_zone_1_on` of `coordinator.py`. -/
def toggle_zone_1_on (value : Nat) : Nat :=
  if value &&& BIT_DUAL_ZONE_MODE = 0 then set_bits value MASK_ZONE_BOTH
  else set_bits value (1 <<< 8)

/-- Embeds `toggle_zone_1_off` of `coordinator.py`. -/
def toggle_zone_1_off (value : Nat) : Nat :=
  if value &&& BIT_DUAL_ZONE_MODE = 0 then clear_bits value MASK_ZONE_BOTH
  else clear_bits value (1 <<< 8)

/-- Transport and synchronization effects of a coordinator operation, in
program order: lock acquire/release, holding-register reads, single- and
multi-register writes, and the post-write refresh request. -/
inductive Act where
  | acquire : Act
  | release : Act
  | readH : Nat → Nat → Act
  | write1 : Nat → Nat → Act
  | writeN : Nat → List Nat → Act
  | refresh : Act
  deriving DecidableEq

/-- Clamp of `async_write_register_transform`: `max(0, min(0xFFFF, x))`. -/
def clamp16 (x : Int) : Int := max 0 (min 0xFFFF x)

/-- Python's builtin `round` on the exact rational value of its argument:
round to the nearest integer, ties to the even neighbor. -/
def pythonRound (q : ℚ) : Int :=
  let f : Int := ⌊q⌋
  if q - f < 1 / 2 then f
  else if 1 / 2 < q - f then f + 1
  else if f % 2 = 0 then f else f + 1

/-- Modelled from the spec: round-half-away-from-zero, the rounding the spec
ascribes to the counter calibration write; kept separate from `pythonRound`
(the rounding the source actually performs) for comparison. -/
def spec_round_half_away_from_zero (q : ℚ) : Int :=
  if 0 ≤ q then ⌊q + 1 / 2⌋ else -⌊-q + 1 / 2⌋

/-- Embeds `async_write_register_transform` of `coordinator.py` as the list of
effects it performs.  `cached` is `self.data.get(data_key)` (present iff the
snapshot holds the key), `readVal` the word a fresh single-register read would
return, `transform` the caller-supplied transform. -/
def async_write_register_transform (address : Nat) (cached : Option Int)
    (readVal : Nat) (transform : Int → Int) : List Act :=
  let current : Int := cached.getD (readVal : Int)
  let preReads : List Act := if cached.isSome then [] else [Act.readH address 1]
  let new_value : Int := clamp16 (transform current)
  if new_value = current then Act.acquire :: preReads ++ [Act.release]
  else Act.acquire :: preReads ++
    [Act.write1 address new_value.toNat, Act.release, Act.refresh]

/-- Embeds `async_write_counter_step` of `coordinator.py`: effect list paired
with the raised error, if any.  Validation happens before the lock is
acquired, so a rejected call contributes no effects at all. -/
def async_write_counter_step (counter_index step_value : Int)
    (cached : Option Nat) (readVal : Nat) : List Act × Option String :=
  if ¬(1 ≤ counter_index ∧ counter_index ≤ 8) then
    ([], some "Invalid counter index")
  else if ¬(step_value = 1 ∨ step_value = 10 ∨ step_value = 100) then
    ([], some "Invalid counter step")
  else
    let address : Nat := ((REG_COUNTER_SETTINGS_START : Int) + (counter_index - 1)).toNat
    let current : Nat := cached.getD readVal
    let preReads : List Act := if cached.isSome then [] else [Act.readH address 1]
    let new_value : Nat := (current &&& 0xFF) ||| ((step_value.toNat &&& 0xFF) <<< 8)
    if new_value = current then (Act.acquire :: preReads ++ [Act.release], none)
    else (Act.acquire :: preReads ++
      [Act.write1 address new_value, Act.release, Act.refresh], none)

/-- Embeds `async_write_counter_calibration` of `coordinator.py`.  The float
argument is modelled as the exact rational it denotes and Python `round` by
`pythonRound`; both are exact at every input these theorems use. -/
def async_write_counter_calibration (counter_index : Int) (value_m3 : ℚ) :
    List Act × Option String :=
  if ¬(1 ≤ counter_index ∧ counter_index ≤ 8) then
    ([], some "Invalid counter index")
  else
    let scaled : Int := min (max 0 (pythonRound (value_m3 * 1000))) 0x7FFFFFFF
    let hi : Nat := (scaled.toNat >>> 16) &&& 0xFFFF
    let lo : Nat := scaled.toNat &&& 0xFFFF
    let address : Nat := ((REG_WATER_COUNTERS_START : Int) + (counter_index - 1) * 2).toNat
    ([Act.acquire, Act.writeN address [hi, lo], Act.release, Act.refresh], none)

/-- Embeds `_mask_transform` of `select.py`:
`(current & ~mask) | ((value << shift) & mask)` with
`mask = ((1 << width) - 1) << shift`. -/
def mask_transform (shift width value current : Nat) : Nat :=
  let mask : Nat := ((1 <<< width) - 1) <<< shift
  Nat.ldiff current mask ||| ((value <<< shift) &&& mask)

/-- Line type of the first line of a pair: bits 10-11 (`_decode_line_config`). -/
def decode_line_type_a (value : Nat) : Nat := (value >>> 10) &&& 0x3

/-- Line group of the first line of a pair: bits 8-9. -/
def decode_line_group_a (value : Nat) : Nat := (value >>> 8) &&& 0x3

/-- Line type of the second line of a pair: bits 2-3. -/
def decode_line_type_b (value : Nat) : Nat := (value >>> 2) &&& 0x3

/-- Line group of the second line of a pair: bits 0-1. -/
def decode_line_group_b (value : Nat) : Nat := value &&& 0x3

/-- Decoding a line-config word and re-encoding each of the four 2-bit fields
at the same shift and width via `mask_transform` (as the select entities do). -/
def reencode_line_config (w : Nat) : Nat :=
  mask_transform 0 2 (decode_line_group_b w)
    (mask_transform 2 2 (decode_line_type_b w)
      (mask_transform 8 2 (decode_line_group_a w)
        (mask_transform 10 2 (decode_line_type_a w) w)))

/-- Line type list built by `_async_update_data` from the two config words. -/
def line_types (c12 c34 : Nat) : List Nat :=
  [decode_line_type_a c12, decode_line_type_b c12,
   decode_line_type_a c34, decode_line_type_b c34]

/-- Line group list built by `_async_update_data`. -/
def line_groups (c12 c34 : Nat) : List Nat :=
  [decode_line_group_a c12, decode_line_group_b c12,
   decode_line_group_a c34, decode_line_group_b c34]

/-- Per-line condition of the detected-leak-lines loop: leak bit `idx - 1`
set, or non-zero decoded type or group. -/
def leak_cond (leak c12 c34 idx : Nat) : Bool :=
  (leak &&& (1 <<< (idx - 1)) != 0) ||
  ((line_types c12 c34).getD (idx - 1) 0 != 0) ||
  ((line_groups c12 c34).getD (idx - 1) 0 != 0)

/-- Embeds the `detected_leak` loop of `_async_update_data`: starting from 1,
each line index 1..4 satisfying the condition overwrites the result. -/
def detected_leak_lines (leak c12 c34 : Nat) : Nat :=
  (List.range' 1 4).foldl
    (fun acc idx => if leak_cond leak c12 c34 idx then idx else acc) 1

/-- Counter settings decode: step code, bits 8-15. -/
def counter_step_field (value : Nat) : Nat := (value >>> 8) &&& 0xFF

/-- Counter settings decode: namur error, bits 2-3. -/
def counter_namur_error_field (value : Nat) : Nat := (value >>> 2) &&& 0x3

/-- Counter settings decode: connection type, bit 1. -/
def counter_connection_type_field (value : Nat) : Nat := (value >>> 1) &&& 0x1

/-- Counter settings decode: enabled flag, `bool(value & 0x1)`. -/
def counter_enabled_field (value : Nat) : Bool := value &&& 0x1 != 0

/-- Counter settings decode: status code, bits 0-3. -/
def counter_status_code_field (value : Nat) : Nat := value &&& 0xF

/-- Signed 32-bit reinterpretation of `_async_update_data`:
`value -= 0x100000000` when bit 31 is set. -/
def toSigned32 (value : Nat) : Int :=
  if value &&& 0x80000000 ≠ 0 then (value : Int) - 0x100000000 else (value : Int)

/-- Python `round(x, 3)` on the exact rational value of `x`. -/
def pythonRound3 (x : ℚ) : ℚ := (pythonRound (x * 1000) : ℚ) / 1000

/-- Value decoded from one water-counter register pair, high word first:
`round(((hi << 16) | lo as signed 32-bit) * 0.001, 3)`. -/
def water_pair_value (hi lo : Nat) : ℚ :=
  pythonRound3 ((toSigned32 ((hi <<< 16) ||| lo) : ℚ) * (1 / 1000))

/-- Snapshot key of water counter `counter_idx`:
slot `((idx - 1) // 2) + 1`, port 1 if `idx` is odd else 2. -/
def water_counter_key (counter_idx : Nat) : String :=
  let slot : Nat := (counter_idx - 1) / 2 + 1
  let port : Nat := if counter_idx % 2 ≠ 0 then 1 else 2
  s!"water_counter_s{slot}_p{port}"

/-- Embeds the water-counter loop of `_async_update_data`: pairs of the
16-word block, high word first, keyed by slot/port. -/
def decode_water (regs : List Nat) : List (String × ℚ) :=
  (List.range (regs.length / 2)).map fun k =>
    (water_counter_key (k + 1),
     water_pair_value (regs.getD (2 * k) 0) (regs.getD (2 * k + 1) 0))

/-- Wireless reads of `_async_update_data`: when the reported count is
positive, the params block then the status block are read, both capped at 50
words. -/
def wireless_read_acts (rawCount : Nat) : List Act :=
  if rawCount > 0 then
    [Act.readH REG_WIRELESS_PARAMS_START (max 0 (min 50 rawCount)),
     Act.readH REG_WIRELESS_SENSORS_START (max 0 (min 50 rawCount))]
  else []

/-- The snapshot stores the raw, uncapped register value as the wireless
sensor count. -/
def wireless_sensor_count_stored (rawCount : Nat) : Nat := rawCount

/-- Snapshot field value: either a register-derived number or a flag. -/
inductive FieldVal where
  | n : Nat → FieldVal
  | b : Bool → FieldVal
  deriving DecidableEq

/-- Wireless decode of `_async_update_data`: for each index `1..len` the
config fields (`wireless_{idx}_cfg_raw`, `wireless_{idx}_group`) and the
status fields; entries are (index, field-name suffix, value). -/
def wireless_entries (params ws : List Nat) : List (Nat × String × FieldVal) :=
  ((List.range params.length).map fun k =>
    [(k + 1, "cfg_raw", FieldVal.n (params.getD k 0)),
     (k + 1, "group", FieldVal.n (params.getD k 0 &&& 0xFF))]).flatten
  ++ ((List.range ws.length).map fun k =>
    let value : Nat := ws.getD k 0
    [(k + 1, "raw", FieldVal.n value),
     (k + 1, "alarm", FieldVal.b (value &&& (1 <<< 0) != 0)),
     (k + 1, "category", FieldVal.b (value &&& (1 <<< 1) != 0)),
     (k + 1, "loss", FieldVal.b (value &&& (1 <<< 2) != 0)),
     (k + 1, "signal", FieldVal.n (((value >>> 3) &&& 0x7) * 25)),
     (k + 1, "battery", FieldVal.n ((value >>> 8) &&& 0xFF))]).flatten

/-- Embeds the `installed_wireless_sensors` property: re-clamp the stored
count into `[0, 50]` and list the indices `1..count`. -/
def installed_wireless_sensors (stored : Int) : List Nat :=
  List.range' 1 (max 0 (min 50 stored)).toNat

/-- The slave-keyword/calling-convention combinations `_call_with_slave`
tries, in order: keyword name among device_id/slave/unit (outer loop),
keyword-only then positional style (inner loop). -/
def slave_kw_candidates : List (String × Bool) :=
  [("device_id", false), ("device_id", true), ("slave", false),
   ("slave", true), ("unit", false), ("unit", true)]

/-- Probe loop of `_call_with_slave`: try each combination in order against
the method's signature, stopping at the first one not raising `TypeError`.
Returns the attempted combinations in order and the accepted one, if any. -/
def probe_combos : List (String × Bool) → (String → Bool → Bool) →
    List (String × Bool) × Option (String × Bool)
  | [], _ => ([], none)
  | c :: rest, accepts =>
    if accepts c.1 c.2 then ([c], some c)
    else
      let r := probe_combos rest accepts
      (c :: r.1, r.2)

/-- Embeds `_call_with_slave` for one transport call: `accepts` says which
keyword-name/positional combinations the underlying method accepts. -/
def call_with_slave (accepts : String → Bool → Bool) :
    List (String × Bool) × Option (String × Bool) :=
  probe_combos slave_kw_candidates accepts

/-- A session's successive transport calls: `_call_with_slave` holds no state
between calls, so every call runs the identical probe. -/
def session_calls (n : Nat) (accepts : String → Bool → Bool) :
    List (List (String × Bool) × Option (String × Bool)) :=
  List.replicate n (call_with_slave accepts)

theorem MASK_ZONE_BOTH_testBit (i : Nat) :
    MASK_ZONE_BOTH.testBit i = (decide (i = 8) || decide (i = 9)) := by
  simp only [MASK_ZONE_BOTH, BIT_ZONE_1, BIT_ZONE_2, Nat.testBit_lor,
    Nat.one_shiftLeft, Nat.testBit_two_pow]
  by_cases h8 : i = 8 <;> by_cases h9 : i = 9 <;> simp [h8, h9] <;> omega

theorem shiftLeft_one_testBit (n i : Nat) :
    (1 <<< n : Nat).testBit i = decide (n = i) := by
  rw [Nat.one_shiftLeft, Nat.testBit_two_pow]

theorem testBit_256 (i : Nat) : (256 : Nat).testBit i = decide (i = 8) := by
  have h : (256 : Nat) = 2 ^ 8 := by norm_num
  rw [h, Nat.testBit_two_pow]
  by_cases h8 : i = 8 <;> simp [h8] <;> omega

/-- C1: when the dual-zone-mode bit of the alarm/mode value is clear,
`toggle_zone_1_on` sets both zone bits (8 and 9) and `toggle_zone_1_off`
clears both; when it is set, they set/clear only bit 8 and leave bit 9 as it
was; every bit other than 8 and 9 is unchanged in all cases, and the branch is
decided by the dual-zone bit of the input value itself. -/
theorem C1_toggle_zone_1 (v : Nat) (hv : v < 2 ^ 16) :
    (v &&& BIT_DUAL_ZONE_MODE = 0 →
      (toggle_zone_1_on v).testBit 8 = true ∧ (toggle_zone_1_on v).testBit 9 = true ∧
      (toggle_zone_1_off v).testBit 8 = false ∧ (toggle_zone_1_off v).testBit 9 = false) ∧
    (v &&& BIT_DUAL_ZONE_MODE ≠ 0 →
      (toggle_zone_1_on v).testBit 8 = true ∧ (toggle_zone_1_on v).testBit 9 = v.testBit 9 ∧
      (toggle_zone_1_off v).testBit 8 = false ∧ (toggle_zone_1_off v).testBit 9 = v.testBit 9) ∧
    (∀ i, i ≠ 8 → i ≠ 9 →
      (toggle_zone_1_on v).testBit i = v.testBit i ∧
      (toggle_zone_1_off v).testBit i = v.testBit i) := by
  refine ⟨fun hd => ?_, fun hd => ?_, fun i h8 h9 => ?_⟩
  · simp [toggle_zone_1_on, toggle_zone_1_off, hd, set_bits, clear_bits,
      Nat.testBit_lor, Nat.testBit_ldiff, MASK_ZONE_BOTH_testBit]
  · simp [toggle_zone_1_on, toggle_zone_1_off, hd, set_bits, clear_bits,
      Nat.testBit_lor, Nat.testBit_ldiff, shiftLeft_one_testBit, testBit_256]
  · by_cases hd : v &&& BIT_DUAL_ZONE_MODE = 0 <;>
      simp [toggle_zone_1_on, toggle_zone_1_off, hd, set_bits, clear_bits,
        Nat.testBit_lor, Nat.testBit_ldiff, MASK_ZONE_BOTH_testBit,
        shiftLeft_one_testBit, testBit_256, h8, h9, Ne.symm h8, Ne.symm h9]

/-- C1 witness: the theorem instantiated at the concrete value 512
(dual-zone bit clear, zone-2 bit already set). -/
theorem C1_toggle_zone_1_witness : (toggle_zone_1_on 512).testBit 8 = true := by
  exact ((C1_toggle_zone_1 512 (by norm_num)).1 (by decide)).1

theorem testBit_mask3 (j : Nat) : (3 : Nat).testBit j = decide (j < 2) := by
  have h : (3 : Nat) = 2 ^ 2 - 1 := by norm_num
  rw [h, Nat.testBit_two_pow_sub_one]

theorem testBit_mask255 (j : Nat) : (255 : Nat).testBit j = decide (j < 8) := by
  have h : (255 : Nat) = 2 ^ 8 - 1 := by norm_num
  rw [h, Nat.testBit_two_pow_sub_one]

theorem mask_transform_extract (s w : Nat) :
    mask_transform s 2 ((w >>> s) &&& 0x3) w = w := by
  apply Nat.eq_of_testBit_eq
  intro i
  have h3 : ((1 <<< 2) - 1 : Nat) = 3 := rfl
  by_cases hs : s ≤ i
  · by_cases hw2 : i - s < 2
    · have hsi : s + (i - s) = i := by omega
      simp [mask_transform, h3, Nat.testBit_lor, Nat.testBit_land, Nat.testBit_ldiff,
        Nat.testBit_shiftLeft, Nat.testBit_shiftRight, hs, hw2, hsi, testBit_mask3]
    · simp [mask_transform, h3, Nat.testBit_lor, Nat.testBit_land, Nat.testBit_ldiff,
        Nat.testBit_shiftLeft, Nat.testBit_shiftRight, hs, hw2, testBit_mask3]
  · simp [mask_transform, h3, Nat.testBit_lor, Nat.testBit_land, Nat.testBit_ldiff,
      Nat.testBit_shiftLeft, Nat.testBit_shiftRight, hs, testBit_mask3]

/-- C5: decoding the four 2-bit (type, group) fields of a 16-bit line-config
word at shifts 10, 8, 2, 0 and re-encoding each decoded field at the same
shift and width reproduces the word bit-for-bit. -/
theorem C5_line_config_roundtrip (w : Nat) (hw : w < 2 ^ 16) :
    reencode_line_config w = w := by
  unfold reencode_line_config decode_line_type_a decode_line_group_a
    decode_line_type_b decode_line_group_b
  rw [mask_transform_extract 10 w, mask_transform_extract 8 w,
    mask_transform_extract 2 w]
  have h0 : w &&& 0x3 = (w >>> 0) &&& 0x3 := by rw [Nat.shiftRight_zero]
  rw [h0, mask_transform_extract 0 w]

/-- C5 witness: the round-trip at the concrete word 0x2D31. -/
theorem C5_line_config_roundtrip_witness : reencode_line_config 0x2D31 = 0x2D31 :=
  C5_line_config_roundtrip 0x2D31 (by norm_num)

theorem step_write_low_bits (cur s j : Nat) (hj : j < 8) :
    ((cur &&& 0xFF) ||| ((s &&& 0xFF) <<< 8)).testBit j = cur.testBit j := by
  have h8 : ¬ (8 ≤ j) := by omega
  simp [Nat.testBit_lor, Nat.testBit_land, Nat.testBit_shiftLeft, testBit_mask255,
    hj, h8]

theorem step_write_step_field (cur s : Nat) (hs : s < 256) :
    counter_step_field ((cur &&& 0xFF) ||| ((s &&& 0xFF) <<< 8)) = s := by
  apply Nat.eq_of_testBit_eq
  intro j
  by_cases hj : j < 8
  · have hle : 8 ≤ 8 + j := by omega
    have hlt : ¬ (8 + j < 8) := by omega
    have hsub : 8 + j - 8 = j := by omega
    simp [counter_step_field, Nat.testBit_land, Nat.testBit_lor,
      Nat.testBit_shiftLeft, Nat.testBit_shiftRight, testBit_mask255,
      hj, hle, hlt, hsub]
  · have hsj : s < 2 ^ j := by
      calc s < 256 := hs
        _ = 2 ^ 8 := by norm_num
        _ ≤ 2 ^ j := Nat.pow_le_pow_right (by norm_num) (by omega)
    simp [counter_step_field, Nat.testBit_land, Nat.testBit_lor,
      Nat.testBit_shiftLeft, Nat.testBit_shiftRight, testBit_mask255,
      hj, Nat.testBit_lt_two_pow hsj]

theorem counter_enabled_field_spec (v : Nat) :
    counter_enabled_field v = v.testBit 0 := by
  have h := Nat.and_one_is_mod v
  have ht : v.testBit 0 = decide (v / 2 ^ 0 % 2 = 1) := Nat.testBit_to_div_mod
  simp only [counter_enabled_field, h, ht, pow_zero, Nat.div_one]
  rcases Nat.mod_two_eq_zero_or_one v with h2 | h2 <;> simp [h2]

theorem counter_connection_type_field_spec (v : Nat) :
    counter_connection_type_field v = if v.testBit 1 then 1 else 0 := by
  have h : counter_connection_type_field v = (v >>> 1) % 2 := by
    simp [counter_connection_type_field, Nat.and_one_is_mod]
  have ht : v.testBit 1 = decide ((v >>> 1) % 2 = 1) := by
    rw [Nat.testBit_to_div_mod, Nat.shiftRight_eq_div_pow]
  rw [h, ht]
  rcases Nat.mod_two_eq_zero_or_one (v >>> 1) with h2 | h2 <;> simp [h2]

theorem counter_namur_error_field_spec (v : Nat) :
    counter_namur_error_field v < 4 ∧
    ∀ j, (counter_namur_error_field v).testBit j = (v.testBit (2 + j) && decide (j < 2)) := by
  constructor
  · have : (v >>> 2) &&& 3 ≤ 3 := Nat.and_le_right
    simpa [counter_namur_error_field] using Nat.lt_succ_of_le this
  · intro j
    simp [counter_namur_error_field, Nat.testBit_land, Nat.testBit_shiftRight,
      testBit_mask3]

theorem counter_step_field_spec (v : Nat) :
    counter_step_field v < 256 ∧
    ∀ j, (counter_step_field v).testBit j = (v.testBit (8 + j) && decide (j < 8)) := by
  constructor
  · have : (v >>> 8) &&& 255 ≤ 255 := Nat.and_le_right
    simpa [counter_step_field] using Nat.lt_succ_of_le this
  · intro j
    simp [counter_step_field, Nat.testBit_land, Nat.testBit_shiftRight,
      testBit_mask255]

/-- C4: the counter-step write rejects an index outside [1,8] or a step value
outside 1/10/100 with no effect at all (the lock is never acquired); a valid
write targets register `settings-base + (index-1)` with a value whose bits
8-15 are the step value and whose bits 0-7 are those of the current value;
and the snapshot decode of a counter config word takes enabled from bit 0,
connection type from bit 1, namur error from bits 2-3 and step from
bits 8-15. -/
theorem C4_counter_step (idx step : Int) (cached : Option Nat) (readVal : Nat) (v : Nat) :
    (¬(1 ≤ idx ∧ idx ≤ 8) →
      async_write_counter_step idx step cached readVal = ([], some "Invalid counter index")) ∧
    ((1 ≤ idx ∧ idx ≤ 8) → ¬(step = 1 ∨ step = 10 ∨ step = 100) →
      async_write_counter_step idx step cached readVal = ([], some "Invalid counter step")) ∧
    ((1 ≤ idx ∧ idx ≤ 8) → (step = 1 ∨ step = 10 ∨ step = 100) →
      (async_write_counter_step idx step cached readVal).2 = none ∧
      (∀ a w, Act.write1 a w ∈ (async_write_counter_step idx step cached readVal).1 →
        a = ((REG_COUNTER_SETTINGS_START : Int) + (idx - 1)).toNat ∧
        w = (cached.getD readVal &&& 0xFF) ||| ((step.toNat &&& 0xFF) <<< 8)) ∧
      ((cached.getD readVal &&& 0xFF) ||| ((step.toNat &&& 0xFF) <<< 8) ≠ cached.getD readVal →
        Act.write1 (((REG_COUNTER_SETTINGS_START : Int) + (idx - 1)).toNat)
            ((cached.getD readVal &&& 0xFF) ||| ((step.toNat &&& 0xFF) <<< 8))
          ∈ (async_write_counter_step idx step cached readVal).1) ∧
      counter_step_field ((cached.getD readVal &&& 0xFF) ||| ((step.toNat &&& 0xFF) <<< 8))
        = step.toNat ∧
      (∀ j, j < 8 →
        ((cached.getD readVal &&& 0xFF) ||| ((step.toNat &&& 0xFF) <<< 8)).testBit j
          = (cached.getD readVal).testBit j)) ∧
    counter_enabled_field v = v.testBit 0 ∧
    counter_connection_type_field v = (if v.testBit 1 then 1 else 0) ∧
    counter_namur_error_field v < 4 ∧
    (∀ j, (counter_namur_error_field v).testBit j = (v.testBit (2 + j) && decide (j < 2))) ∧
    counter_step_field v < 256 ∧
    (∀ j, (counter_step_field v).testBit j = (v.testBit (8 + j) && decide (j < 8))) := by
  refine ⟨fun hbad => ?_, fun hok hbad => ?_, fun hok hstep => ?_,
    counter_enabled_field_spec v, counter_connection_type_field_spec v,
    (counter_namur_error_field_spec v).1, (counter_namur_error_field_spec v).2,
    (counter_step_field_spec v).1, (counter_step_field_spec v).2⟩
  · simp [async_write_counter_step, hbad]
  · simp [async_write_counter_step, hok, hbad]
  · have hs256 : step.toNat < 256 := by rcases hstep with h | h | h <;> simp [h]
    refine ⟨?_, ?_, ?_, step_write_step_field _ _ hs256,
      fun j hj => step_write_low_bits _ _ j hj⟩
    · cases cached <;> simp [async_write_counter_step, hok, hstep] <;> split <;> simp
    · intro a w hmem
      cases cached with
      | none =>
        by_cases heq : (readVal &&& 0xFF) ||| ((step.toNat &&& 0xFF) <<< 8) = readVal
        · simp [async_write_counter_step, hok, hstep, heq] at hmem
        · simp [async_write_counter_step, hok, hstep, heq] at hmem
          simpa using hmem
      | some c =>
        by_cases heq : (c &&& 0xFF) ||| ((step.toNat &&& 0xFF) <<< 8) = c
        · simp [async_write_counter_step, hok, hstep, heq] at hmem
        · simp [async_write_counter_step, hok, hstep, heq] at hmem
          simpa using hmem
    · intro hne
      cases cached with
      | none =>
        simp only [Option.getD_none] at hne
        simp [async_write_counter_step, hok, hstep, hne]
      | some c =>
        simp only [Option.getD_some] at hne
        simp [async_write_counter_step, hok, hstep, hne]

/-- C4 witness: a valid write at index 3, step 10, with cached value 0x12AB. -/
theorem C4_counter_step_witness :
    (async_write_counter_step 3 10 (some 0x12AB) 0).2 = none :=
  (((C4_counter_step 3 10 (some 0x12AB) 0 0).2.2.1) (by constructor <;> decide)
    (by right; left; rfl)).1

/-- C3: the register write-transform clamps the transform's result to
[0, 0xFFFF]; if the clamped result equals the current value (cached snapshot
field when present, else a fresh single-register read) nothing is written and
no refresh is requested; otherwise exactly the clamped value is written to the
single register and a refresh follows. -/
theorem C3_write_transform (address : Nat) (cached : Option Int) (readVal : Nat)
    (transform : Int → Int) :
    (0 ≤ clamp16 (transform (cached.getD (readVal : Int))) ∧
     clamp16 (transform (cached.getD (readVal : Int))) ≤ 0xFFFF) ∧
    (clamp16 (transform (cached.getD (readVal : Int))) = cached.getD (readVal : Int) →
      (∀ a w, Act.write1 a w ∉ async_write_register_transform address cached readVal transform) ∧
      (∀ a vs, Act.writeN a vs ∉ async_write_register_transform address cached readVal transform) ∧
      Act.refresh ∉ async_write_register_transform address cached readVal transform) ∧
    (clamp16 (transform (cached.getD (readVal : Int))) ≠ cached.getD (readVal : Int) →
      Act.write1 address (clamp16 (transform (cached.getD (readVal : Int)))).toNat
        ∈ async_write_register_transform address cached readVal transform ∧
      Act.refresh ∈ async_write_register_transform address cached readVal transform ∧
      (∀ a w, Act.write1 a w ∈ async_write_register_transform address cached readVal transform →
        a = address ∧ w = (clamp16 (transform (cached.getD (readVal : Int)))).toNat)) := by
  refine ⟨⟨le_max_left 0 _, max_le (by norm_num) (min_le_left _ _)⟩,
    fun heq => ?_, fun hne => ?_⟩
  · cases cached with
    | none =>
      simp only [Option.getD_none] at heq
      simp [async_write_register_transform, heq]
    | some c =>
      simp only [Option.getD_some] at heq
      simp [async_write_register_transform, heq]
  · cases cached with
    | none =>
      simp only [Option.getD_none] at hne ⊢
      refine ⟨by simp [async_write_register_transform, hne],
        by simp [async_write_register_transform, hne], ?_⟩
      intro a w hmem
      simp [async_write_register_transform, hne] at hmem
      simpa using hmem
    | some c =>
      simp only [Option.getD_some] at hne ⊢
      refine ⟨by simp [async_write_register_transform, hne],
        by simp [async_write_register_transform, hne], ?_⟩
      intro a w hmem
      simp [async_write_register_transform, hne] at hmem
      simpa using hmem

/-- C3 witness: a changing transform issues exactly the clamped write. -/
theorem C3_write_transform_witness :
    Act.write1 5 7 ∈ async_write_register_transform 5 (some 3) 0 (fun _ => 7) :=
  ((C3_write_transform 5 (some 3) 0 (fun _ => 7)).2.2 (by decide)).1

/-- C7: `detected_leak_lines` is the highest line index 1..4 whose leak bit is
set or whose decoded type or group is non-zero, and 1 when no line qualifies:
every qualifying index is a lower bound, the result is within 1..4 and itself
qualifies unless it is the default 1, and with no qualifying line it is 1. -/
theorem C7_detected_leak_lines (leak c12 c34 : Nat) :
    (leak_cond leak c12 c34 1 = true → 1 ≤ detected_leak_lines leak c12 c34) ∧
    (leak_cond leak c12 c34 2 = true → 2 ≤ detected_leak_lines leak c12 c34) ∧
    (leak_cond leak c12 c34 3 = true → 3 ≤ detected_leak_lines leak c12 c34) ∧
    (leak_cond leak c12 c34 4 = true → 4 ≤ detected_leak_lines leak c12 c34) ∧
    1 ≤ detected_leak_lines leak c12 c34 ∧ detected_leak_lines leak c12 c34 ≤ 4 ∧
    (detected_leak_lines leak c12 c34 = 1 ∨
      leak_cond leak c12 c34 (detected_leak_lines leak c12 c34) = true) ∧
    ((leak_cond leak c12 c34 1 = false ∧ leak_cond leak c12 c34 2 = false ∧
      leak_cond leak c12 c34 3 = false ∧ leak_cond leak c12 c34 4 = false) →
      detected_leak_lines leak c12 c34 = 1) := by
  have hD : detected_leak_lines leak c12 c34 =
      (if leak_cond leak c12 c34 4 then 4 else if leak_cond leak c12 c34 3 then 3
       else if leak_cond leak c12 c34 2 then 2 else if leak_cond leak c12 c34 1 then 1
       else 1) := rfl
  by_cases h4 : leak_cond leak c12 c34 4 = true <;>
  by_cases h3 : leak_cond leak c12 c34 3 = true <;>
  by_cases h2 : leak_cond leak c12 c34 2 = true <;>
  by_cases h1 : leak_cond leak c12 c34 1 = true <;>
    simp [hD, h1, h2, h3, h4]

/-- C7 witness: leak word 0b100 (leak bit of line 3) pushes the result to at
least 3. -/
theorem C7_detected_leak_lines_witness : 3 ≤ detected_leak_lines 4 0 0 :=
  (C7_detected_leak_lines 4 0 0).2.2.1 (by decide)

theorem pythonRound_intCast (n : Int) : pythonRound (n : ℚ) = n := by
  norm_num [pythonRound, Int.floor_intCast]

theorem pythonRound_tie_even (q : ℚ) (f : Int) (hf : ⌊q⌋ = f)
    (hr : q - f = 1 / 2) (he : f % 2 = 0) : pythonRound q = f := by
  simp only [pythonRound, hf, hr, he]
  norm_num

theorem pythonRound_ge_floor (q : ℚ) : ⌊q⌋ ≤ pythonRound q := by
  simp only [pythonRound]
  split_ifs <;> omega

/-- C2 counterexample to the claimed rounding mode: the exactly representable
input 0.0625 m³ scales to 62.5 milli-units, which Python `round` (ties to
even) encodes as 62 while round-half-away-from-zero would give 63; the write
issued carries 62. -/
theorem C2_round_half_away_counterexample :
    async_write_counter_calibration 1 (1 / 16) =
      ([Act.acquire, Act.writeN 107 [0, 62], Act.release, Act.refresh], none) ∧
    pythonRound ((1 / 16 : ℚ) * 1000) = 62 ∧
    spec_round_half_away_from_zero ((1 / 16 : ℚ) * 1000) = 63 := by
  have hpr : pythonRound ((1 / 16 : ℚ) * 1000) = 62 :=
    pythonRound_tie_even _ 62 (by norm_num) (by push_cast; norm_num) (by norm_num)
  refine ⟨?_, hpr, ?_⟩
  · simp only [async_write_counter_calibration]
    rw [if_neg (by norm_num), hpr]
    norm_num
    decide
  · simp only [spec_round_half_away_from_zero]
    rw [if_pos (by norm_num)]
    norm_num

/-- C2 (amended): the calibration write converts the input to milli-units by
Python `round` (round-half-to-even on the exact value), clamps to
[0, 0x7FFFFFFF], splits big-endian and issues one two-register write at
`water-base + (index-1)*2`; 1.2345 encodes to (0, 1234), -5 clamps to 0, and
any input above 2147483.647 clamps to 0x7FFFFFFF. -/
theorem C2_calibration (idx : Int) (h1 : 1 ≤ idx) (h8 : idx ≤ 8) (q : ℚ) :
    async_write_counter_calibration idx q =
      ([Act.acquire,
        Act.writeN ((REG_WATER_COUNTERS_START : Int) + (idx - 1) * 2).toNat
          [((min (max 0 (pythonRound (q * 1000))) 0x7FFFFFFF).toNat >>> 16) &&& 0xFFFF,
           (min (max 0 (pythonRound (q * 1000))) 0x7FFFFFFF).toNat &&& 0xFFFF],
        Act.release, Act.refresh], none) ∧
    0 ≤ min (max 0 (pythonRound (q * 1000))) 0x7FFFFFFF ∧
    min (max 0 (pythonRound (q * 1000))) 0x7FFFFFFF ≤ 0x7FFFFFFF ∧
    async_write_counter_calibration 1 (12345 / 10000) =
      ([Act.acquire, Act.writeN 107 [0, 1234], Act.release, Act.refresh], none) ∧
    async_write_counter_calibration 1 (-5) =
      ([Act.acquire, Act.writeN 107 [0, 0], Act.release, Act.refresh], none) ∧
    (∀ r : ℚ, (2147483647 : ℚ) / 1000 < r →
      min (max 0 (pythonRound (r * 1000))) 0x7FFFFFFF = 0x7FFFFFFF) := by
  refine ⟨?_, le_min (le_max_left 0 _) (by norm_num), min_le_right _ _, ?_, ?_, ?_⟩
  · simp [async_write_counter_calibration, h1, h8]
  · have hpr : pythonRound ((12345 / 10000 : ℚ) * 1000) = 1234 :=
      pythonRound_tie_even _ 1234 (by norm_num) (by push_cast; norm_num) (by norm_num)
    simp only [async_write_counter_calibration]
    rw [if_neg (by norm_num), hpr]
    norm_num
    decide
  · have hcast : ((-5 : ℚ) * 1000) = ((-5000 : Int) : ℚ) := by norm_num
    have hpr : pythonRound ((-5 : ℚ) * 1000) = -5000 := by
      rw [hcast, pythonRound_intCast]
    simp only [async_write_counter_calibration]
    rw [if_neg (by norm_num), hpr]
    norm_num
    decide
  · intro r hr
    have h1000 : (2147483647 : ℚ) < r * 1000 := by
      have h := (div_lt_iff (by norm_num : (0 : ℚ) < 1000)).1 hr
      linarith
    have hfl : (2147483647 : Int) ≤ ⌊r * 1000⌋ :=
      Int.le_floor.2 (by exact_mod_cast le_of_lt h1000)
    have hpr : (2147483647 : Int) ≤ pythonRound (r * 1000) :=
      le_trans hfl (pythonRound_ge_floor _)
    have hmax : max 0 (pythonRound (r * 1000)) = pythonRound (r * 1000) :=
      max_eq_right (le_trans (by norm_num) hpr)
    rw [hmax]
    omega

/-- C2 witness: the theorem instantiated at index 1 with input 1.2345. -/
theorem C2_calibration_witness :
    async_write_counter_calibration 1 (12345 / 10000) =
      ([Act.acquire, Act.writeN 107 [0, 1234], Act.release, Act.refresh], none) :=
  (C2_calibration 1 (by norm_num) (by norm_num) 0).2.2.2.1

/-- C8 counterexample: the out-of-range calibration value -5 is not rejected;
the call succeeds and completes a (clamped) write. -/
theorem C8_calibration_not_rejected :
    async_write_counter_calibration 1 (-5) =
      ([Act.acquire, Act.writeN 107 [0, 0], Act.release, Act.refresh], none) ∧
    (async_write_counter_calibration 1 (-5)).2 = none := by
  have hcast : ((-5 : ℚ) * 1000) = ((-5000 : Int) : ℚ) := by norm_num
  have hpr : pythonRound ((-5 : ℚ) * 1000) = -5000 := by
    rw [hcast, pythonRound_intCast]
  have heq : async_write_counter_calibration 1 (-5) =
      ([Act.acquire, Act.writeN 107 [0, 0], Act.release, Act.refresh], none) := by
    simp only [async_write_counter_calibration]
    rw [if_neg (by norm_num), hpr]
    norm_num
    decide
  exact ⟨heq, by rw [heq]⟩

/-- C8 (amended): an invalid counter index or step value is rejected
synchronously — the call returns an error having performed no effect at all
(no transport call, lock never acquired) — for both counter write operations;
an out-of-range calibration value, however, is not rejected: it is clamped
into range and written, the calibration write validating only the index. -/
theorem C8_validation (idx step : Int) (cached : Option Nat) (readVal : Nat) (q : ℚ) :
    (¬(1 ≤ idx ∧ idx ≤ 8) →
      async_write_counter_step idx step cached readVal = ([], some "Invalid counter index") ∧
      async_write_counter_calibration idx q = ([], some "Invalid counter index")) ∧
    ((1 ≤ idx ∧ idx ≤ 8) → ¬(step = 1 ∨ step = 10 ∨ step = 100) →
      async_write_counter_step idx step cached readVal = ([], some "Invalid counter step")) ∧
    ((1 ≤ idx ∧ idx ≤ 8) →
      (async_write_counter_calibration idx q).2 = none ∧
      Act.acquire ∈ (async_write_counter_calibration idx q).1 ∧
      ∃ a vals, Act.writeN a vals ∈ (async_write_counter_calibration idx q).1) := by
  refine ⟨fun hbad => ?_, fun hok hbad => ?_, fun hok => ?_⟩
  · exact ⟨by simp [async_write_counter_step, hbad],
      by simp [async_write_counter_calibration, hbad]⟩
  · simp [async_write_counter_step, hok, hbad]
  · refine ⟨?_, ?_, ?_⟩ <;> simp [async_write_counter_calibration, hok]

/-- C8 witness: index 0 is rejected with no effects by the step write. -/
theorem C8_validation_witness :
    async_write_counter_step 0 1 none 0 = ([], some "Invalid counter index") :=
  (((C8_validation 0 1 none 0 0).1) (by norm_num)).1

theorem toSigned32_spec (w : Nat) (hw : w < 2 ^ 32) :
    -(2 ^ 31) ≤ toSigned32 w ∧ toSigned32 w < 2 ^ 31 ∧
    toSigned32 w % 2 ^ 32 = (w : Int) % 2 ^ 32 := by
  have hand : w &&& 0x80000000 = (w.testBit 31).toNat * 2 ^ 31 := by
    have h31 : (0x80000000 : Nat) = 2 ^ 31 := by norm_num
    rw [h31, Nat.and_two_pow]
  have htb : w.testBit 31 = decide (w / 2 ^ 31 % 2 = 1) := Nat.testBit_to_div_mod
  by_cases hb : w.testBit 31 = true
  · have hge : 2 ^ 31 ≤ w := by
      rw [htb] at hb
      simp at hb
      omega
    have hcond : w &&& 0x80000000 ≠ 0 := by
      rw [hand, hb]
      norm_num
    have hA : toSigned32 w = (w : Int) - 0x100000000 := by
      simp only [toSigned32]
      rw [if_pos hcond]
    rw [hA]
    refine ⟨?_, ?_, ?_⟩ <;> omega
  · have hlt : w < 2 ^ 31 := by
      rw [htb] at hb
      simp at hb
      omega
    have hcond : ¬ (w &&& 0x80000000 ≠ 0) := by
      rw [hand]
      simp [hb]
    have hA : toSigned32 w = (w : Int) := by
      simp only [toSigned32]
      rw [if_neg hcond]
    rw [hA]
    refine ⟨?_, ?_, ?_⟩ <;> omega

theorem water_pair_value_tiny : water_pair_value 0 1 = 1 / 1000 := by
  have h1 : toSigned32 ((0 <<< 16) ||| 1) = 1 := by decide
  unfold water_pair_value pythonRound3
  rw [h1]
  have harg : ((1 : Int) : ℚ) * (1 / 1000) * 1000 = ((1 : Int) : ℚ) := by push_cast; ring
  rw [harg, pythonRound_intCast]
  norm_num

theorem water_pair_value_neg : water_pair_value 0xFFFF 0xFFFF = -(1 / 1000) := by
  have h1 : toSigned32 ((0xFFFF <<< 16) ||| 0xFFFF) = -1 := by decide
  unfold water_pair_value pythonRound3
  rw [h1]
  have harg : ((-1 : Int) : ℚ) * (1 / 1000) * 1000 = ((-1 : Int) : ℚ) := by push_cast; ring
  rw [harg, pythonRound_intCast]
  norm_num

theorem water_pair_value_one : water_pair_value 0 0x3E8 = 1 := by
  have h1 : toSigned32 ((0 <<< 16) ||| 0x3E8) = 1000 := by decide
  unfold water_pair_value pythonRound3
  rw [h1]
  have harg : ((1000 : Int) : ℚ) * (1 / 1000) * 1000 = ((1000 : Int) : ℚ) := by push_cast; ring
  rw [harg, pythonRound_intCast]
  norm_num

/-- C6: each of the 8 water-counter register pairs (high word first) decodes
as a signed 32-bit two's-complement integer scaled by 0.001 and rounded to 3
decimals, stored under the slot/port key with slot `((idx-1)//2)+1`, port 1
for odd index and 2 for even; pair (0, 1) gives 0.001, (0xFFFF, 0xFFFF) gives
-0.001, (0, 0x3E8) gives 1.000. -/
theorem C6_water_decode (regs : List Nat) (h16 : regs.length = 16) (k : Nat) (hk : k < 8) :
    (decode_water regs)[k]? =
      some (water_counter_key (k + 1),
        water_pair_value (regs.getD (2 * k) 0) (regs.getD (2 * k + 1) 0)) ∧
    (water_counter_key 1 = "water_counter_s1_p1" ∧ water_counter_key 2 = "water_counter_s1_p2" ∧
     water_counter_key 3 = "water_counter_s2_p1" ∧ water_counter_key 4 = "water_counter_s2_p2" ∧
     water_counter_key 5 = "water_counter_s3_p1" ∧ water_counter_key 6 = "water_counter_s3_p2" ∧
     water_counter_key 7 = "water_counter_s4_p1" ∧ water_counter_key 8 = "water_counter_s4_p2") ∧
    (∀ w, w < 2 ^ 32 → -(2 ^ 31) ≤ toSigned32 w ∧ toSigned32 w < 2 ^ 31 ∧
      toSigned32 w % 2 ^ 32 = (w : Int) % 2 ^ 32) ∧
    water_pair_value 0 1 = 1 / 1000 ∧
    water_pair_value 0xFFFF 0xFFFF = -(1 / 1000) ∧
    water_pair_value 0 0x3E8 = 1 := by
  refine ⟨?_, by decide, fun w hw => toSigned32_spec w hw,
    water_pair_value_tiny, water_pair_value_neg, water_pair_value_one⟩
  simp [decode_water, h16, List.getElem?_map, List.getElem?_range, hk]

/-- C6 witness: the theorem instantiated at the all-zero 16-word block and
pair index 0. -/
theorem C6_water_decode_witness :
    (decode_water (List.replicate 16 0))[0]? =
      some (water_counter_key 1, water_pair_value 0 0) :=
  (C6_water_decode (List.replicate 16 0) (by simp) 0 (by norm_num)).1

theorem probe_combos_spec (accepts : String → Bool → Bool)
    (l : List (String × Bool)) :
    (∀ w, (probe_combos l accepts).2 = some w →
      accepts w.1 w.2 = true ∧ (probe_combos l accepts).1.getLast? = some w ∧
      ∀ c ∈ (probe_combos l accepts).1.dropLast, accepts c.1 c.2 = false) ∧
    ((probe_combos l accepts).2 = none →
      (probe_combos l accepts).1 = l ∧ ∀ c ∈ l, accepts c.1 c.2 = false) := by
  induction l with
  | nil => simp [probe_combos]
  | cons c rest ih =>
    by_cases h : accepts c.1 c.2
    · constructor
      · intro w hw
        simp [probe_combos, h] at hw
        subst hw
        simp [probe_combos, h]
      · intro hnone
        simp [probe_combos, h] at hnone
    · constructor
      · intro w hw
        simp only [probe_combos, h, if_false, Bool.false_eq_true, ite_false, reduceIte] at hw ⊢
        have hrec := ih.1 w hw
        refine ⟨hrec.1, ?_, ?_⟩
        · have hne : (probe_combos rest accepts).1 ≠ [] := by
            intro hnil
            have := hrec.2.1
            rw [hnil] at this
            simp at this
          obtain ⟨x, xs, hxs⟩ := List.exists_cons_of_ne_nil hne
          rw [hxs]
          rw [hxs] at hrec
          exact List.getLast?_cons_cons.trans hrec.2.1
        · have hne : (probe_combos rest accepts).1 ≠ [] := by
            intro hnil
            have := hrec.2.1
            rw [hnil] at this
            simp at this
          obtain ⟨x, xs, hxs⟩ := List.exists_cons_of_ne_nil hne
          rw [hxs]
          intro d hd
          have hdl : (c :: x :: xs).dropLast = c :: (x :: xs).dropLast := rfl
          rw [hdl] at hd
          rcases List.mem_cons.1 hd with hdc | hdrest
          · subst hdc
            simpa using h
          · have := hrec.2.2
            rw [hxs] at this
            exact this d hdrest
      · intro hnone
        simp only [probe_combos, h, if_false, Bool.false_eq_true, ite_false, reduceIte] at hnone ⊢
        have hrec := ih.2 hnone
        refine ⟨by rw [hrec.1], ?_⟩
        intro d hd
        rcases List.mem_cons.1 hd with hdc | hdrest
        · subst hdc
          simpa using h
        · exact hrec.2 d hdrest

/-- C9 (amended): every transport call of a session runs the identical probe
over the fixed combination order, so all calls of a session settle on the same
accepted combination (the first one the method accepts, every earlier
combination being rejected); but the probe is re-run in full on every call —
the source caches nothing between calls. -/
theorem C9_probe_consistency (accepts : String → Bool → Bool) (n i j : Nat)
    (hi : i < n) (hj : j < n) :
    (session_calls n accepts)[i]? = some (call_with_slave accepts) ∧
    (session_calls n accepts)[i]? = (session_calls n accepts)[j]? ∧
    (∀ w, (call_with_slave accepts).2 = some w →
      accepts w.1 w.2 = true ∧ (call_with_slave accepts).1.getLast? = some w ∧
      ∀ c ∈ (call_with_slave accepts).1.dropLast, accepts c.1 c.2 = false) ∧
    ((call_with_slave accepts).2 = none →
      (call_with_slave accepts).1 = slave_kw_candidates ∧
      ∀ c ∈ slave_kw_candidates, accepts c.1 c.2 = false) := by
  refine ⟨?_, ?_, (probe_combos_spec accepts slave_kw_candidates).1,
    (probe_combos_spec accepts slave_kw_candidates).2⟩
  · simp [session_calls, List.getElem?_replicate, hi]
  · simp [session_calls, List.getElem?_replicate, hi, hj]

/-- C9 witness: the theorem instantiated for a two-call session of a transport
accepting every combination. -/
theorem C9_probe_consistency_witness :
    (session_calls 2 (fun _ _ => true))[0]? = some (call_with_slave (fun _ _ => true)) :=
  (C9_probe_consistency (fun _ _ => true) 2 0 1 (by norm_num) (by norm_num)).1

/-- C9 counterexample to "no re-probing": with a transport accepting only the
keyword name `unit` in keyword style, every call of the session — the second
included — attempts the four failing alternatives again before succeeding,
instead of reusing the known-good combination alone. -/
theorem C9_reprobe_counterexample :
    (call_with_slave (fun kw pos => kw == "unit" && !pos)).1 =
      [("device_id", false), ("device_id", true), ("slave", false),
       ("slave", true), ("unit", false)] ∧
    (call_with_slave (fun kw pos => kw == "unit" && !pos)).2 = some ("unit", false) ∧
    (session_calls 2 (fun kw pos => kw == "unit" && !pos))[1]? =
      some (call_with_slave (fun kw pos => kw == "unit" && !pos)) ∧
    ((session_calls 2 (fun kw pos => kw == "unit" && !pos))[1]?.getD ([], none)).1 ≠
      [("unit", false)] := by
  refine ⟨by decide, by decide, ?_, by decide⟩
  simp [session_calls, List.getElem?_replicate]

/-- C10: when the controller reports more than 50 wireless sensors, both
wireless register reads are capped at 50 words and the decode covers exactly
sensor indices 1..50, yet the snapshot stores the raw uncapped count; the
`installed_wireless_sensors` property independently re-clamps that count and
returns the contiguous index list 1..50. -/
theorem C10_wireless_capping (N : Nat) (hN : 50 < N) (params ws : List Nat)
    (hp : params.length = max 0 (min 50 N)) (hw : ws.length = max 0 (min 50 N)) :
    wireless_read_acts N =
      [Act.readH REG_WIRELESS_PARAMS_START 50, Act.readH REG_WIRELESS_SENSORS_START 50] ∧
    wireless_sensor_count_stored N = N ∧
    (∀ e ∈ wireless_entries params ws, 1 ≤ e.1 ∧ e.1 ≤ 50) ∧
    (∀ i, 1 ≤ i → i ≤ 50 →
      (i, "raw", FieldVal.n (ws.getD (i - 1) 0)) ∈ wireless_entries params ws) ∧
    installed_wireless_sensors (N : Int) = List.range' 1 50 := by
  have hcap : max 0 (min 50 N) = 50 := by omega
  have hp50 : params.length = 50 := by omega
  have hw50 : ws.length = 50 := by omega
  refine ⟨?_, rfl, ?_, ?_, ?_⟩
  · have hpos : N > 0 := by omega
    simp [wireless_read_acts, hpos]
    omega
  · intro e he
    simp only [wireless_entries, List.mem_append, List.mem_flatten, List.mem_map] at he
    rcases he with ⟨s, ⟨k, hk, hs⟩, hes⟩ | ⟨s, ⟨k, hk, hs⟩, hes⟩
    · rw [← hs] at hes
      simp only [List.mem_range, hp50] at hk
      simp only [List.mem_cons, List.not_mem_nil, or_false] at hes
      rcases hes with h | h <;> (subst h; constructor <;> simp <;> omega)
    · rw [← hs] at hes
      simp only [List.mem_range, hw50] at hk
      simp only [List.mem_cons, List.not_mem_nil, or_false] at hes
      rcases hes with h | h | h | h | h | h <;> (subst h; constructor <;> simp <;> omega)
  · intro i hi1 hi50
    simp only [wireless_entries, List.mem_append]
    right
    simp only [List.mem_flatten, List.mem_map]
    refine ⟨_, ⟨i - 1, ?_, rfl⟩, ?_⟩
    · simp only [List.mem_range]
      omega
    · have hi : i - 1 + 1 = i := by omega
      rw [hi]
      simp
  · have h50 : (max 0 (min 50 (N : Int))).toNat = 50 := by omega
    unfold installed_wireless_sensors
    rw [h50]

/-- C10 witness: the theorem instantiated at a reported count of 60 with
50-word register blocks. -/
theorem C10_wireless_capping_witness :
    wireless_read_acts 60 =
      [Act.readH REG_WIRELESS_PARAMS_START 50, Act.readH REG_WIRELESS_SENSORS_START 50] :=
  (C10_wireless_capping 60 (by norm_num) (List.replicate 50 0) (List.replicate 50 0)
    (by simp) (by simp)).1
